import Mathlib

/-!
Shallow embedding of the news-aggregation pipeline:

* query builder (`buildLocalQueries`, `buildBusinessQueries`,
  `buildCommunityQueries`, `buildAllQueries`),
* news fetcher (`fetchNewsForQueries` with URL deduplication), and
* summarizer (`summarizeArticle`, `summarizeArticles`).

Conventions of the embedding:

* JavaScript strings that can be `undefined`/`null` are modelled as
  `Option String`; strings that are always present are `String`.
  A string value is "falsy" exactly when it is `""`, so the JS check
  `if (s)` on a `String` becomes `s ≠ ""` and on an `Option String`
  becomes `s.getD "" ≠ ""` (both `none` and `some ""` are falsy).
* Outbound HTTP calls are oracles passed as function arguments: a
  per-query news fetch is `String → Except String (List Article)`
  (`.error` models a thrown error / rejected promise), and a per-article
  completion call is `String → Except String (Option String)` taking the
  user-message content and returning `.ok (some content)` when the
  response carries `choices[0].message.content`, `.ok none` when that
  field is missing, and `.error` when the call throws.
* `Promise.allSettled` over the per-query fetches is order-preserving,
  and each fetch closure catches its own error and resolves with `[]`,
  so the settled outcomes are modelled as `List.map` of the caught
  oracle over the limited query list.
-/

namespace NewsApp

/-- A normalized article as produced by the news fetcher and consumed by
the summarizer.  `description` and `source` are `Option` so that the
summarizer's object-spread path can be observed to retain or drop these
fields (`none` models an absent key). -/
structure Article where
  title : String
  url : String
  description : Option String
  image : String
  publishedAt : String
  source : Option String
  deriving Repr, DecidableEq, Inhabited

/-- An article after the summarization stage.  The enabled path builds a
five-field object, so `description` and `source` are `none` there; the
spread-based fallback paths copy every input field and add `summary`. -/
structure SummArticle where
  title : String
  url : String
  summary : String
  image : String
  publishedAt : String
  description : Option String
  source : Option String
  deriving Repr, DecidableEq, Inhabited

/-- Executable model of the JS `String.prototype.trim` (drop leading and
trailing whitespace), defined by structural recursion on the character
list so that concrete instances reduce inside the kernel. -/
def jsTrim (s : String) : String :=
  ⟨((s.data.dropWhile Char.isWhitespace).reverse.dropWhile Char.isWhitespace).reverse⟩

deriving instance DecidableEq for Except

/-- `DEFAULT_QUERY_LIMIT = parseInt(process.env.NEWS_QUERY_LIMIT, 10) || 5`:
the env override when it parses to a truthy (nonzero) number, else 5. -/
def DEFAULT_QUERY_LIMIT (envValue : Option Nat) : Nat :=
  match envValue with
  | some n => if n = 0 then 5 else n
  | none => 5

/-- The per-query fetch closure of `fetchNewsForQueries`: dispatch on the
provider, and catch any error as an empty contribution.  The oracles
stand for `fetchFromNewsAPI`/`fetchFromGNews` applied to the fixed
`apiKey` and `maxResultsPerQuery`. -/
def settleFetch (provider : String)
    (fetchNewsAPI fetchGNews : String → Except String (List Article))
    (query : String) : List Article :=
  match (if provider = "newsapi" then fetchNewsAPI query else fetchGNews query) with
  | .ok articles => articles
  | .error _ => []

/-- The combine-and-deduplicate loop of `fetchNewsForQueries`: push an
article iff `article.url` is truthy and not yet in `seenUrls`, adding the
url to `seenUrls` when pushed. -/
def dedupByUrl : List Article → List String → List Article
  | [], _ => []
  | article :: rest, seenUrls =>
    if article.url ≠ "" ∧ article.url ∉ seenUrls then
      article :: dedupByUrl rest (article.url :: seenUrls)
    else dedupByUrl rest seenUrls

/-- The concatenation, in query-issue order, of the settled per-query
results for the first `queryLimit` queries (the list the dedup loop
walks). -/
def mergedArticles (queries : List String) (provider : String)
    (fetchNewsAPI fetchGNews : String → Except String (List Article))
    (queryLimit : Nat) : List Article :=
  ((queries.take queryLimit).map (settleFetch provider fetchNewsAPI fetchGNews)).flatten

/-- `fetchNewsForQueries(queries, apiKey, provider, maxResultsPerQuery,
queryLimit)`: empty-queries guard, then apiKey guard, then slice to
`queryLimit`, fetch each query with per-query error capture, and merge
with URL deduplication. -/
def fetchNewsForQueries (queries : List String) (apiKey : String) (provider : String)
    (fetchNewsAPI fetchGNews : String → Except String (List Article))
    (queryLimit : Nat) : Except String (List Article) :=
  if queries.isEmpty then .ok []
  else if apiKey = "" then .error "NEWS_API_KEY is not configured"
  else .ok (dedupByUrl (mergedArticles queries provider fetchNewsAPI fetchGNews queryLimit) [])

/-! ## Summarizer (aiSummarizer.js) -/

/-- `createOpenAIClient(apiKey)`: throws when the key is falsy; the
`ctorFails` flag models an environmental failure of the `new OpenAI`
constructor (the reason the caller wraps it in try/catch). -/
def createOpenAIClient (apiKey : String) (ctorFails : Bool) : Except String Unit :=
  if apiKey = "" then .error "OPENAI_API_KEY is not configured"
  else if ctorFails then .error "client construction failed"
  else .ok ()

/-- The user-message content built in `summarizeArticle`. -/
def promptContent (article : Article) : String :=
  "Title: " ++ article.title ++ "\nDescription: " ++ article.description.getD ""

/-- `summarizeArticle(article, client)`: skip the call for degenerate
articles; on a response with truthy `choices[0].message.content` return
its trim; on a missing/falsy content field or a thrown error fall back
to `article.description || ""`. -/
def summarizeArticle (article : Article)
    (complete : String → Except String (Option String)) : String :=
  if article.title = "" ∧ article.description.getD "" = "" then
    article.description.getD ""
  else
    match complete (promptContent article) with
    | .ok (some content) =>
      if content = "" then article.description.getD "" else jsTrim content
    | .ok none => article.description.getD ""
    | .error _ => article.description.getD ""

/-- The `{...article, summary: article.description || ""}` spread used by
every fallback path of `summarizeArticles`: all input fields retained,
`summary` added. -/
def summaryFromDescription (article : Article) : SummArticle :=
  { title := article.title
    url := article.url
    summary := article.description.getD ""
    image := article.image
    publishedAt := article.publishedAt
    description := article.description
    source := article.source }

/-- The five-field object pushed by the enabled summarization loop of
`summarizeArticles` (`description` and `source` are absent). -/
def summarizedEntry (complete : String → Except String (Option String))
    (article : Article) : SummArticle :=
  { title := article.title
    url := article.url
    summary := summarizeArticle article complete
    image := article.image
    publishedAt := article.publishedAt
    description := none
    source := none }

/-- `summarizeArticles(articles, apiKey, enableSummarization)`: empty
guard; description-copy path when disabled or the key is falsy; the same
path when client construction throws; otherwise one sequential
completion call per article.  The loop's own try/catch is unreachable in
the embedding because `summarizeArticle` is total (it catches every
failure itself), so the loop is a plain map. -/
def summarizeArticles (articles : List Article) (apiKey : String)
    (enableSummarization : Bool) (ctorFails : Bool)
    (complete : String → Except String (Option String)) : List SummArticle :=
  if articles.isEmpty then []
  else if enableSummarization = false ∨ apiKey = "" then
    articles.map summaryFromDescription
  else
    match createOpenAIClient apiKey ctorFails with
    | .error _ => articles.map summaryFromDescription
    | .ok _ => articles.map (summarizedEntry complete)

/-! ## Helper lemmas -/

theorem dedupByUrl_mem_spec (l : List Article) : ∀ (seen : List String) (a : Article),
    a ∈ dedupByUrl l seen →
      a.url ≠ "" ∧ a.url ∉ seen ∧ l.find? (fun b => b.url == a.url) = some a := by
  induction l with
  | nil => intro seen a h; simp [dedupByUrl] at h
  | cons x rest ih =>
    intro seen a h
    simp only [dedupByUrl] at h
    by_cases hx : x.url ≠ "" ∧ x.url ∉ seen
    · rw [if_pos hx] at h
      rcases List.mem_cons.mp h with rfl | hmem
      · exact ⟨hx.1, hx.2, List.find?_cons_of_pos _ (by simp)⟩
      · obtain ⟨h1, h2, h3⟩ := ih (x.url :: seen) a hmem
        have hne : x.url ≠ a.url := fun he => h2 (he ▸ List.mem_cons_self _ _)
        refine ⟨h1, fun hs => h2 (List.mem_cons_of_mem _ hs), ?_⟩
        rw [List.find?_cons_of_neg _ (by simpa using hne), h3]
    · rw [if_neg hx] at h
      obtain ⟨h1, h2, h3⟩ := ih seen a h
      have hne : x.url ≠ a.url := by
        rcases not_and_or.mp hx with hx1 | hx2
        · intro he; exact h1 (he ▸ not_not.mp hx1)
        · intro he; exact h2 (he ▸ not_not.mp hx2)
      exact ⟨h1, h2, by rw [List.find?_cons_of_neg _ (by simpa using hne), h3]⟩

theorem dedupByUrl_countP_eq_zero (u : String) (l : List Article) (seen : List String)
    (hu : u ∈ seen) : (dedupByUrl l seen).countP (fun a => a.url == u) = 0 := by
  apply List.countP_eq_zero.mpr
  intro a ha
  obtain ⟨_, h2, _⟩ := dedupByUrl_mem_spec l seen a ha
  simpa using fun he : a.url = u => h2 (he ▸ hu)

theorem dedupByUrl_countP_le_one (u : String) (l : List Article) :
    ∀ (seen : List String), (dedupByUrl l seen).countP (fun a => a.url == u) ≤ 1 := by
  induction l with
  | nil => intro seen; simp [dedupByUrl]
  | cons x rest ih =>
    intro seen
    simp only [dedupByUrl]
    by_cases hx : x.url ≠ "" ∧ x.url ∉ seen
    · rw [if_pos hx]
      by_cases hxu : x.url = u
      · subst hxu
        rw [List.countP_cons]
        have hzero := dedupByUrl_countP_eq_zero x.url rest (x.url :: seen)
          (List.mem_cons_self _ _)
        simp [hzero]
      · rw [List.countP_cons]
        have : (fun a => a.url == u) x = false := by simpa using hxu
        simpa [this] using ih (x.url :: seen)
    · rw [if_neg hx]; exact ih seen

theorem dedupByUrl_sublist (l : List Article) :
    ∀ (seen : List String), (dedupByUrl l seen).Sublist l := by
  induction l with
  | nil => intro seen; simp [dedupByUrl]
  | cons x rest ih =>
    intro seen
    simp only [dedupByUrl]
    by_cases hx : x.url ≠ "" ∧ x.url ∉ seen
    · rw [if_pos hx]; exact (ih (x.url :: seen)).cons₂ x
    · rw [if_neg hx]; exact (ih seen).cons x

theorem dedupByUrl_complete (l : List Article) : ∀ (seen : List String) (a : Article),
    a ∈ l → a.url ≠ "" → a.url ∉ seen →
      ∃ b ∈ dedupByUrl l seen, b.url = a.url := by
  induction l with
  | nil => intro seen a ha _ _; simp at ha
  | cons x rest ih =>
    intro seen a ha hurl hseen
    simp only [dedupByUrl]
    by_cases hx : x.url ≠ "" ∧ x.url ∉ seen
    · rw [if_pos hx]
      by_cases hax : a.url = x.url
      · exact ⟨x, List.mem_cons_self _ _, hax.symm⟩
      · rcases List.mem_cons.mp ha with rfl | ha'
        · exact absurd rfl hax
        · have hnotin : a.url ∉ x.url :: seen := by
            intro hmem
            rcases List.mem_cons.mp hmem with hcase | hcase
            · exact hax hcase
            · exact hseen hcase
          obtain ⟨b, hb, hbu⟩ := ih (x.url :: seen) a ha' hurl hnotin
          exact ⟨b, List.mem_cons_of_mem _ hb, hbu⟩
    · rw [if_neg hx]
      rcases List.mem_cons.mp ha with rfl | ha'
      · exact absurd ⟨hurl, hseen⟩ hx
      · exact ih seen a ha' hurl hseen

theorem getD_map_summ (f : Article → SummArticle) (l : List Article) (i : Nat)
    (h : i < l.length) :
    (l.map f).getD i default = f (l.getD i default) := by
  have h2 : i < (l.map f).length := by simpa using h
  rw [List.getD_eq_getElem _ _ h2, List.getD_eq_getElem _ _ h, List.getElem_map]

theorem summarizeArticles_branches (articles : List Article) (apiKey : String)
    (enableSummarization ctorFails : Bool)
    (complete : String → Except String (Option String)) :
    summarizeArticles articles apiKey enableSummarization ctorFails complete
        = articles.map summaryFromDescription ∨
      summarizeArticles articles apiKey enableSummarization ctorFails complete
        = articles.map (summarizedEntry complete) := by
  unfold summarizeArticles
  by_cases hempty : articles.isEmpty
  · left
    rw [if_pos hempty, List.isEmpty_iff.mp hempty]
    simp
  · rw [if_neg hempty]
    by_cases hdis : enableSummarization = false ∨ apiKey = ""
    · left; rw [if_pos hdis]
    · rw [if_neg hdis]
      unfold createOpenAIClient
      by_cases hk : apiKey = ""
      · exact absurd (Or.inr hk) hdis
      · rw [if_neg hk]
        cases ctorFails with
        | false => right; simp
        | true => left; simp

theorem summarizeArticle_cases (article : Article)
    (complete : String → Except String (Option String)) :
    (∃ s, s ≠ "" ∧ complete (promptContent article) = .ok (some s) ∧
        summarizeArticle article complete = jsTrim s) ∨
      summarizeArticle article complete = article.description.getD "" := by
  unfold summarizeArticle
  by_cases hdeg : article.title = "" ∧ article.description.getD "" = ""
  · right; rw [if_pos hdeg]
  · rw [if_neg hdeg]
    rcases hc : complete (promptContent article) with e | o
    · right; rfl
    · rcases o with _ | s
      · right; rfl
      · by_cases hs : s = ""
        · right; simp [hs]
        · left; exact ⟨s, hs, rfl, by simp [hs]⟩

/-! ## Concrete sample data -/

/-- A sample normalized article with a non-empty url. -/
def sampleArticle : Article :=
  { title := "t1", url := "http://a", description := some "d1", image := "",
    publishedAt := "p1", source := some "s1" }

/-- A sample article whose `url` is empty (the no-URL case). -/
def sampleNoUrlArticle : Article :=
  { title := "t2", url := "", description := some "d2", image := "",
    publishedAt := "", source := some "s2" }

/-- A fetch oracle that succeeds with no articles. -/
def fetchNone : String → Except String (List Article) := fun _ => .ok []

/-- A fetch oracle that succeeds with `[sampleArticle]`. -/
def fetchSample : String → Except String (List Article) := fun _ => .ok [sampleArticle]

/-- A fetch oracle that succeeds with `[sampleNoUrlArticle]`. -/
def fetchNoUrl : String → Except String (List Article) := fun _ => .ok [sampleNoUrlArticle]

/-- A fetch oracle that always throws. -/
def fetchFail : String → Except String (List Article) := fun _ => .error "boom"

/-- A completion oracle whose response lacks the content field. -/
def completeNone : String → Except String (Option String) := fun _ => .ok none

/-- A completion oracle that succeeds with untrimmed content. -/
def completeSample : String → Except String (Option String) :=
  fun _ => .ok (some " A summary. ")

/-! ## Claims -/

/-- C1 (counterexample): an upstream article with an empty `url` does NOT
appear in the merged output of `fetchNewsForQueries` — the output is `[]`
rather than the one-element list the claim requires, so no-URL articles
do not always pass through. -/
theorem fetchNewsForQueries_noUrl_dropped_cex :
    fetchNewsForQueries ["q"] "key" "gnews" fetchNone fetchNoUrl 5 = .ok [] := rfl

/-- C1 (amended): articles whose `url` is empty or missing bypass the
dedup tracking but are always EXCLUDED from the merged output of
`fetchNewsForQueries`: every article in the output has a non-empty
`url`. -/
theorem fetchNewsForQueries_noUrl_excluded (queries : List String) (apiKey provider : String)
    (fetchNewsAPI fetchGNews : String → Except String (List Article)) (queryLimit : Nat)
    (out : List Article)
    (h : fetchNewsForQueries queries apiKey provider fetchNewsAPI fetchGNews queryLimit
      = .ok out) :
    ∀ a ∈ out, a.url ≠ "" := by
  intro a ha
  unfold fetchNewsForQueries at h
  by_cases hq : queries.isEmpty
  · rw [if_pos hq] at h
    obtain rfl : ([] : List Article) = out := by simpa using h
    simp at ha
  · rw [if_neg hq] at h
    by_cases hk : apiKey = ""
    · rw [if_pos hk] at h; simp at h
    · rw [if_neg hk] at h
      obtain rfl : dedupByUrl (mergedArticles queries provider fetchNewsAPI fetchGNews
          queryLimit) [] = out := by simpa using h
      exact (dedupByUrl_mem_spec _ [] a ha).1

/-- C1 (witness). -/
theorem fetchNewsForQueries_noUrl_excluded_w : sampleArticle.url ≠ "" :=
  fetchNewsForQueries_noUrl_excluded ["q"] "key" "gnews" fetchNone fetchSample 5
    [sampleArticle] rfl sampleArticle (by decide)

/-- C2 (counterexample): with summarization disabled, the output entry of
`summarizeArticles` still carries the input's `description` and `source`
(the object spread copies them), so the output shape is not restricted to
the five final fields on every path. -/
theorem summarizeArticles_disabled_shape_cex :
    summarizeArticles [sampleArticle] "" false false completeNone
      = [{ title := "t1", url := "http://a", summary := "d1", image := "",
           publishedAt := "p1", description := some "d1", source := some "s1" }] := rfl

/-- C2 (amended): only when summarization is enabled, the key is truthy
and client construction succeeds does every entry of `summarizeArticles`
have exactly the fields `{title, url, summary, image, publishedAt}`
(`description` and `source` dropped); on the disabled, absent-key and
failed-client paths the output is the object spread, which retains the
input's `description` and `source` alongside `summary`. -/
theorem summarizeArticles_field_shape (articles : List Article) (apiKey : String)
    (enableSummarization ctorFails : Bool)
    (complete : String → Except String (Option String)) :
    (enableSummarization = true → apiKey ≠ "" → ctorFails = false →
      ∀ o ∈ summarizeArticles articles apiKey enableSummarization ctorFails complete,
        o.description = none ∧ o.source = none) ∧
    ((enableSummarization = false ∨ apiKey = "" ∨ ctorFails = true) →
      summarizeArticles articles apiKey enableSummarization ctorFails complete
        = articles.map summaryFromDescription) := by
  constructor
  · intro he hk hc o ho
    unfold summarizeArticles at ho
    by_cases hempty : articles.isEmpty
    · rw [if_pos hempty] at ho; simp at ho
    · rw [if_neg hempty] at ho
      have hcond : ¬ (enableSummarization = false ∨ apiKey = "") := by simp [he, hk]
      rw [if_neg hcond] at ho
      unfold createOpenAIClient at ho
      rw [if_neg hk] at ho
      subst hc
      simp at ho
      obtain ⟨a, _, rfl⟩ := ho
      exact ⟨rfl, rfl⟩
  · intro hor
    unfold summarizeArticles
    by_cases hempty : articles.isEmpty
    · rw [if_pos hempty, List.isEmpty_iff.mp hempty]; simp
    · rw [if_neg hempty]
      by_cases hdis : enableSummarization = false ∨ apiKey = ""
      · rw [if_pos hdis]
      · rw [if_neg hdis]
        have hk : ¬ apiKey = "" := fun hkeq => hdis (Or.inr hkeq)
        have hc : ctorFails = true := by
          rcases hor with he | hkeq | hc
          · exact absurd (Or.inl he) hdis
          · exact absurd (Or.inr hkeq) hdis
          · exact hc
        unfold createOpenAIClient
        rw [if_neg hk]
        subst hc
        simp

/-- C2 (witness). -/
theorem summarizeArticles_field_shape_w :
    ((summarizeArticles [sampleArticle] "key" true false completeSample).getD 0
        default).description = none ∧
      ((summarizeArticles [sampleArticle] "key" true false completeSample).getD 0
        default).source = none :=
  (summarizeArticles_field_shape [sampleArticle] "key" true false completeSample).1
    rfl (by decide) rfl _ (by decide)

/-- C3 (counterexample): with an empty query list and a falsy key,
`fetchNewsForQueries` returns `.ok []` instead of failing with the
configuration error, because the empty-queries guard runs before the key
guard. -/
theorem fetchNewsForQueries_emptyQueries_nullKey_cex :
    fetchNewsForQueries [] "" "gnews" fetchNone fetchNone 5 = .ok [] := rfl

/-- C3 (amended): for every NON-empty query list, a falsy `apiKey` makes
`fetchNewsForQueries` fail immediately with the error message stating
the key is not configured; and for every `apiKey`, an empty query list
yields `[]` without consulting the fetch oracles. -/
theorem fetchNewsForQueries_guards (queries : List String) (apiKey provider : String)
    (fetchNewsAPI fetchGNews fetchNewsAPI2 fetchGNews2 : String → Except String (List Article))
    (queryLimit : Nat) :
    (queries ≠ [] →
      fetchNewsForQueries queries "" provider fetchNewsAPI fetchGNews queryLimit
        = .error "NEWS_API_KEY is not configured") ∧
    fetchNewsForQueries [] apiKey provider fetchNewsAPI fetchGNews queryLimit = .ok [] ∧
    fetchNewsForQueries [] apiKey provider fetchNewsAPI fetchGNews queryLimit
      = fetchNewsForQueries [] apiKey provider fetchNewsAPI2 fetchGNews2 queryLimit := by
  refine ⟨?_, rfl, rfl⟩
  intro hne
  unfold fetchNewsForQueries
  rw [if_neg (by simpa using hne), if_pos rfl]

/-- C3 (witness). -/
theorem fetchNewsForQueries_guards_w :
    fetchNewsForQueries ["q"] "" "gnews" fetchNone fetchNone 5
      = .error "NEWS_API_KEY is not configured" :=
  (fetchNewsForQueries_guards ["q"] "" "gnews" fetchNone fetchNone fetchNone fetchNone 5).1
    (by decide)

/-- C4: the merged output of `fetchNewsForQueries` contains each url at
most once; it is a subsequence of the per-query results concatenated in
query-issue order; each kept article is the first occurrence of its url
in that merged order (every subsequent occurrence, in the same or a
later query's results, is discarded); and conversely every non-empty url
occurring anywhere in the merged results is represented in the output,
so the first occurrence of a given non-empty url is indeed kept. -/
theorem fetchNewsForQueries_dedup (queries : List String) (apiKey provider : String)
    (fetchNewsAPI fetchGNews : String → Except String (List Article)) (queryLimit : Nat)
    (out : List Article)
    (h : fetchNewsForQueries queries apiKey provider fetchNewsAPI fetchGNews queryLimit
      = .ok out) :
    (∀ u : String, out.countP (fun a => a.url == u) ≤ 1) ∧
    out.Sublist (mergedArticles queries provider fetchNewsAPI fetchGNews queryLimit) ∧
    (∀ a ∈ out,
      (mergedArticles queries provider fetchNewsAPI fetchGNews queryLimit).find?
        (fun b => b.url == a.url) = some a) ∧
    (∀ a ∈ mergedArticles queries provider fetchNewsAPI fetchGNews queryLimit,
      a.url ≠ "" → ∃ b ∈ out, b.url = a.url) := by
  unfold fetchNewsForQueries at h
  by_cases hq : queries.isEmpty
  · rw [if_pos hq] at h
    obtain rfl : queries = [] := List.isEmpty_iff.mp hq
    obtain rfl : ([] : List Article) = out := by simpa using h
    refine ⟨fun u => by simp, List.nil_sublist _,
      fun a ha => absurd ha (List.not_mem_nil a), ?_⟩
    intro a ha
    simp [mergedArticles] at ha
  · rw [if_neg hq] at h
    by_cases hk : apiKey = ""
    · rw [if_pos hk] at h; simp at h
    · rw [if_neg hk] at h
      obtain rfl : dedupByUrl (mergedArticles queries provider fetchNewsAPI fetchGNews
          queryLimit) [] = out := by simpa using h
      refine ⟨fun u => dedupByUrl_countP_le_one u _ [], dedupByUrl_sublist _ [], ?_, ?_⟩
      · intro a ha
        exact (dedupByUrl_mem_spec _ [] a ha).2.2
      · intro a ha hurl
        exact dedupByUrl_complete _ [] a ha hurl (by simp)

/-- C4 (witness): two queries both returning `sampleArticle` merge to a
single occurrence of its url, and that url is kept in the output. -/
theorem fetchNewsForQueries_dedup_w :
    List.countP (fun a => a.url == "http://a") [sampleArticle] ≤ 1 ∧
    List.Sublist [sampleArticle] (mergedArticles ["q1", "q2"] "gnews" fetchNone fetchSample 5) ∧
    (mergedArticles ["q1", "q2"] "gnews" fetchNone fetchSample 5).find?
      (fun b => b.url == sampleArticle.url) = some sampleArticle ∧
    (∃ b ∈ ([sampleArticle] : List Article), b.url = sampleArticle.url) :=
  ⟨(fetchNewsForQueries_dedup ["q1", "q2"] "key" "gnews" fetchNone fetchSample 5
      [sampleArticle] rfl).1 "http://a",
   (fetchNewsForQueries_dedup ["q1", "q2"] "key" "gnews" fetchNone fetchSample 5
      [sampleArticle] rfl).2.1,
   (fetchNewsForQueries_dedup ["q1", "q2"] "key" "gnews" fetchNone fetchSample 5
      [sampleArticle] rfl).2.2.1 sampleArticle (by decide),
   (fetchNewsForQueries_dedup ["q1", "q2"] "key" "gnews" fetchNone fetchSample 5
      [sampleArticle] rfl).2.2.2 sampleArticle (by decide) (by decide)⟩

/-- C6: `fetchNewsForQueries` processes exactly the first `queryLimit`
queries in list order: the result depends only on the fetch outcomes of
`queries.take queryLimit` (later queries are never consulted, whatever
their content), and for a non-empty list with a configured key it is
exactly the deduplicated merge of those queries' settled results; with
no env override the default limit is 5. -/
theorem fetchNewsForQueries_take (queries : List String) (apiKey provider : String)
    (fetchNewsAPI fetchGNews fetchNewsAPI2 fetchGNews2 : String → Except String (List Article))
    (queryLimit : Nat)
    (hagree : ∀ q ∈ queries.take queryLimit,
      fetchNewsAPI q = fetchNewsAPI2 q ∧ fetchGNews q = fetchGNews2 q) :
    (fetchNewsForQueries queries apiKey provider fetchNewsAPI fetchGNews queryLimit
      = fetchNewsForQueries queries apiKey provider fetchNewsAPI2 fetchGNews2 queryLimit) ∧
    (queries ≠ [] → apiKey ≠ "" →
      fetchNewsForQueries queries apiKey provider fetchNewsAPI fetchGNews queryLimit
        = .ok (dedupByUrl
            (mergedArticles queries provider fetchNewsAPI fetchGNews queryLimit) [])) ∧
    DEFAULT_QUERY_LIMIT none = 5 := by
  have hmerge : mergedArticles queries provider fetchNewsAPI fetchGNews queryLimit
      = mergedArticles queries provider fetchNewsAPI2 fetchGNews2 queryLimit := by
    unfold mergedArticles
    congr 1
    apply List.map_congr_left
    intro q hq
    unfold settleFetch
    rcases hagree q hq with ⟨h1, h2⟩
    rw [h1, h2]
  refine ⟨?_, ?_, rfl⟩
  · unfold fetchNewsForQueries
    rw [hmerge]
  · intro hne hk
    unfold fetchNewsForQueries
    rw [if_neg (by simpa using hne), if_neg hk]

/-- C6 (witness): two oracles agreeing on the single processed query but
differing on the dropped one yield identical results. -/
theorem fetchNewsForQueries_take_w :
    fetchNewsForQueries ["q1", "q2"] "key" "gnews" fetchNone fetchNone 1
      = fetchNewsForQueries ["q1", "q2"] "key" "gnews" fetchNone
          (fun q => if q = "q2" then .error "boom" else .ok []) 1 :=
  (fetchNewsForQueries_take ["q1", "q2"] "key" "gnews" fetchNone fetchNone fetchNone
    (fun q => if q = "q2" then .error "boom" else .ok []) 1 (by decide)).1

/-- Replace a failing fetch outcome by a successful empty one (the
contribution the catch clause records for a failing query). -/
def recoverEmpty (r : Except String (List Article)) : Except String (List Article) :=
  match r with
  | .error _ => .ok []
  | .ok articles => .ok articles

/-- C7: per-query fault isolation of `fetchNewsForQueries`: with a
configured key the call always returns normally (an `.ok` value) no
matter which per-query fetches fail, and replacing every failing fetch
outcome by a successful empty one changes nothing — each failing query
contributes exactly the empty list while other queries' results are
unaffected. -/
theorem fetchNewsForQueries_fault_isolation (queries : List String) (apiKey provider : String)
    (fetchNewsAPI fetchGNews : String → Except String (List Article)) (queryLimit : Nat)
    (hk : apiKey ≠ "") :
    (∃ out, fetchNewsForQueries queries apiKey provider fetchNewsAPI fetchGNews queryLimit
      = .ok out) ∧
    fetchNewsForQueries queries apiKey provider fetchNewsAPI fetchGNews queryLimit
      = fetchNewsForQueries queries apiKey provider
          (fun q => recoverEmpty (fetchNewsAPI q)) (fun q => recoverEmpty (fetchGNews q))
          queryLimit := by
  have hsettle : ∀ q, settleFetch provider (fun q => recoverEmpty (fetchNewsAPI q))
      (fun q => recoverEmpty (fetchGNews q)) q
        = settleFetch provider fetchNewsAPI fetchGNews q := by
    intro q
    unfold settleFetch
    by_cases hp : provider = "newsapi"
    · rw [if_pos hp, if_pos hp]
      cases hr : fetchNewsAPI q <;> simp [recoverEmpty, hr]
    · rw [if_neg hp, if_neg hp]
      cases hr : fetchGNews q <;> simp [recoverEmpty, hr]
  have hmerge : mergedArticles queries provider (fun q => recoverEmpty (fetchNewsAPI q))
      (fun q => recoverEmpty (fetchGNews q)) queryLimit
        = mergedArticles queries provider fetchNewsAPI fetchGNews queryLimit := by
    unfold mergedArticles
    congr 1
    apply List.map_congr_left
    intro q _
    exact hsettle q
  constructor
  · unfold fetchNewsForQueries
    by_cases hq : queries.isEmpty
    · rw [if_pos hq]; exact ⟨[], rfl⟩
    · rw [if_neg hq, if_neg hk]; exact ⟨_, rfl⟩
  · unfold fetchNewsForQueries
    rw [hmerge]

/-- C7 (witness): with every fetch failing, the call still returns
normally and equals the all-empty-contributions run. -/
theorem fetchNewsForQueries_fault_isolation_w :
    fetchNewsForQueries ["q1", "q2"] "key" "gnews" fetchFail fetchFail 5
      = fetchNewsForQueries ["q1", "q2"] "key" "gnews"
          (fun q => recoverEmpty (fetchFail q)) (fun q => recoverEmpty (fetchFail q)) 5 :=
  (fetchNewsForQueries_fault_isolation ["q1", "q2"] "key" "gnews" fetchFail fetchFail 5
    (by decide)).2

/-- C8: when summarization is disabled or the key is falsy,
`summarizeArticles` returns one spread entry per article whose `summary`
is the article's description (empty string when absent), and the result
does not depend on the completion oracle (no external call is made). -/
theorem summarizeArticles_disabled (articles : List Article) (apiKey : String)
    (enableSummarization ctorFails : Bool)
    (complete complete2 : String → Except String (Option String))
    (h : enableSummarization = false ∨ apiKey = "") :
    summarizeArticles articles apiKey enableSummarization ctorFails complete
        = articles.map summaryFromDescription ∧
    summarizeArticles articles apiKey enableSummarization ctorFails complete
        = summarizeArticles articles apiKey enableSummarization ctorFails complete2 ∧
    (∀ article : Article,
      (summaryFromDescription article).summary = article.description.getD "") := by
  have hmap : ∀ (c : String → Except String (Option String)),
      summarizeArticles articles apiKey enableSummarization ctorFails c
        = articles.map summaryFromDescription := by
    intro c
    unfold summarizeArticles
    by_cases hempty : articles.isEmpty
    · rw [if_pos hempty, List.isEmpty_iff.mp hempty]; simp
    · rw [if_neg hempty, if_pos h]
  exact ⟨hmap complete, (hmap complete).trans (hmap complete2).symm, fun a => rfl⟩

/-- C8 (witness). -/
theorem summarizeArticles_disabled_w :
    summarizeArticles [sampleArticle] "key" false false completeNone
      = List.map summaryFromDescription [sampleArticle] :=
  (summarizeArticles_disabled [sampleArticle] "key" false false completeNone completeSample
    (Or.inl rfl)).1

/-- C9: `summarizeArticles` is total and never loses an article: the
output has exactly one entry per input article, and each entry's
`summary` is a string — the trimmed completion content when that
article's call succeeded with truthy content, otherwise the article's
original description or the empty string. -/
theorem summarizeArticles_total (articles : List Article) (apiKey : String)
    (enableSummarization ctorFails : Bool)
    (complete : String → Except String (Option String)) :
    (summarizeArticles articles apiKey enableSummarization ctorFails complete).length
        = articles.length ∧
    (∀ i : Nat, i < articles.length →
      (∃ s, s ≠ "" ∧ complete (promptContent (articles.getD i default)) = .ok (some s) ∧
        ((summarizeArticles articles apiKey enableSummarization ctorFails complete).getD i
            default).summary = jsTrim s) ∨
      ((summarizeArticles articles apiKey enableSummarization ctorFails complete).getD i
          default).summary = (articles.getD i default).description.getD "") := by
  rcases summarizeArticles_branches articles apiKey enableSummarization ctorFails complete
    with hb | hb <;> rw [hb]
  · refine ⟨by simp, ?_⟩
    intro i hi
    right
    rw [getD_map_summ _ _ _ hi]
    rfl
  · refine ⟨by simp, ?_⟩
    intro i hi
    rw [getD_map_summ _ _ _ hi]
    rcases summarizeArticle_cases (articles.getD i default) complete with ⟨s, hs, hc, he⟩ | he
    · exact Or.inl ⟨s, hs, hc, he⟩
    · exact Or.inr he

/-- C9 (witness). -/
theorem summarizeArticles_total_w :
    (summarizeArticles [sampleArticle] "key" true false completeSample).length
        = ([sampleArticle] : List Article).length ∧
    ((∃ s, s ≠ "" ∧
        completeSample (promptContent (([sampleArticle] : List Article).getD 0 default))
          = .ok (some s) ∧
        ((summarizeArticles [sampleArticle] "key" true false completeSample).getD 0
            default).summary = jsTrim s) ∨
      ((summarizeArticles [sampleArticle] "key" true false completeSample).getD 0
          default).summary
        = (([sampleArticle] : List Article).getD 0 default).description.getD "") :=
  ⟨(summarizeArticles_total [sampleArticle] "key" true false completeSample).1,
   (summarizeArticles_total [sampleArticle] "key" true false completeSample).2 0 (by decide)⟩

/-- C10: frame property of `summarizeArticles`: for every outcome of the
per-article completion calls, the output has the same length and order as
the input, and each output entry's `title`, `url`, `image` and
`publishedAt` equal the corresponding input article's fields — only the
summary/description field is affected. -/
theorem summarizeArticles_frame (articles : List Article) (apiKey : String)
    (enableSummarization ctorFails : Bool)
    (complete : String → Except String (Option String)) :
    (summarizeArticles articles apiKey enableSummarization ctorFails complete).length
        = articles.length ∧
    (∀ i : Nat, i < articles.length →
      ((summarizeArticles articles apiKey enableSummarization ctorFails complete).getD i
          default).title = (articles.getD i default).title ∧
      ((summarizeArticles articles apiKey enableSummarization ctorFails complete).getD i
          default).url = (articles.getD i default).url ∧
      ((summarizeArticles articles apiKey enableSummarization ctorFails complete).getD i
          default).image = (articles.getD i default).image ∧
      ((summarizeArticles articles apiKey enableSummarization ctorFails complete).getD i
          default).publishedAt = (articles.getD i default).publishedAt) := by
  rcases summarizeArticles_branches articles apiKey enableSummarization ctorFails complete
      with hb | hb <;> rw [hb] <;> refine ⟨by simp, ?_⟩ <;> intro i hi <;>
    rw [getD_map_summ _ _ _ hi] <;> exact ⟨rfl, rfl, rfl, rfl⟩

/-- C10 (witness). -/
theorem summarizeArticles_frame_w :
    ((summarizeArticles [sampleArticle] "key" true false completeSample).getD 0
        default).title = (([sampleArticle] : List Article).getD 0 default).title ∧
    ((summarizeArticles [sampleArticle] "key" true false completeSample).getD 0
        default).url = (([sampleArticle] : List Article).getD 0 default).url ∧
    ((summarizeArticles [sampleArticle] "key" true false completeSample).getD 0
        default).image = (([sampleArticle] : List Article).getD 0 default).image ∧
    ((summarizeArticles [sampleArticle] "key" true false completeSample).getD 0
        default).publishedAt
      = (([sampleArticle] : List Article).getD 0 default).publishedAt :=
  (summarizeArticles_frame [sampleArticle] "key" true false completeSample).2 0 (by decide)

end NewsApp
